import Mathlib

/-!
Verification development for the htcondenser job-description library
(`htcondenser/core/job_classes.py`).  The Python classes `FileMirror`, `Job`,
`JobSet` and `DAGMan` are shallowly embedded as Lean structures and pure
functions; `raise` is modelled by explicit error results, and the mutation of
an object by a method is modelled by returning the updated value.
-/

/-! ## String and path helpers (models of `os.path` / `str` operations) -/

/-- Model of `os.path.basename` for POSIX paths: the part of the string after
the last `/` (empty if the path ends in `/`). -/
def basenameAux : List Char → List Char → List Char
  | acc, [] => acc
  | acc, c :: rest => if c = '/' then basenameAux [] rest else basenameAux (acc ++ [c]) rest

def basename (p : String) : String := ⟨basenameAux [] p.data⟩

/-- Model of Python `s.startswith(pre)`. -/
def strStartsWith (s pre : String) : Bool := pre.data.isPrefixOf s.data

/-- Model of Python `s.endswith(suf)`. -/
def strEndsWith (s suf : String) : Bool := suf.data.isSuffixOf s.data

/-- Model of `os.path.join` for two POSIX path components, following
`posixpath.join`: an absolute second component wins; otherwise the components
are glued with `/` unless the first already ends in `/` or is empty. -/
def pjoin (a b : String) : String :=
  if strStartsWith b "/" then b
  else if a == "" || strEndsWith a "/" then a ++ b
  else a ++ "/" ++ b

/-- Model of Python `sep.join(list)`. -/
def joinSep (sep : String) : List String → String
  | [] => ""
  | h :: t => t.foldl (fun a b => a ++ sep ++ b) h

/-- Python truthiness of an optional string (`None` and `''` are falsy). -/
def optTruthy : Option String → Bool
  | none => false
  | some s => !(s == "")

/-- The string held by an optional value (only used where truthiness holds). -/
def optVal (o : Option String) : String := o.getD ""

/-- Python truthiness of an optional list (`None` and `[]` are falsy). -/
def listTruthy : Option (List String) → Bool
  | none => false
  | some l => !l.isEmpty

/-! ## Data model -/

/-- `FileMirror` (job_classes.py lines 360-375): the original location of a
file, its mirror on HDFS, and its name on the worker node. -/
structure FileMirror where
  original : String
  hdfs : String
  worker : String
deriving DecidableEq

/-- The per-`Job` state (job_classes.py lines 418-439).  The back-reference
`_manager` is not stored; functions that read `self.manager` take the owning
`JobSet` as an explicit argument. -/
structure Job where
  name : String
  args : List String
  input_files : List String
  output_files : List String
  quantity : Nat
  input_file_mirrors : List FileMirror
  output_file_mirrors : List FileMirror
  hdfs_mirror_dir : Option String
deriving DecidableEq

/-- The per-`JobSet` state (job_classes.py lines 124-170).  Filesystem side
effects of `__init__` (directory creation, filename validation) are outside
the scope of the embedded claims; `jobs` is the ordered name-to-Job mapping. -/
structure JobSet where
  exe : String
  copy_exe : Bool
  setup_script : Option String
  filename : String
  out_dir : String
  out_file : String
  err_dir : String
  err_file : String
  log_dir : String
  log_file : String
  cpus : Nat
  memory : String
  disk : String
  transfer_hdfs_input : Bool
  share_exe_setup : Bool
  transfer_input_files : List String
  transfer_output_files : List String
  hdfs_store : String
  jobs : List (String × Job)
  other_job_args : Option (List (String × String))
deriving DecidableEq

/-! ## Mirror derivation (job_classes.py lines 470-508) -/

/-- The mirror directory chosen for one input file (lines 486-489): the
owner's `hdfs_store` for the executable / setup script when
`share_exe_setup` is set, otherwise the per-job mirror directory. -/
def mirror_dir_for (m : JobSet) (dir : String) (ifile : String) : String :=
  if (ifile == m.exe || (match m.setup_script with
                         | some s => ifile == s
                         | none => false)) && m.share_exe_setup
  then m.hdfs_store else dir

/-- `Job.setup_input_file_mirrors` (lines 484-493), reading the job's
`input_files` list. -/
def setup_input_file_mirrors (m : JobSet) (files : List String) (dir : String) :
    List FileMirror :=
  files.map (fun ifile =>
    let bn := basename ifile
    let hd := if strStartsWith ifile "/hdfs" then ifile
              else pjoin (mirror_dir_for m dir ifile) bn
    ⟨ifile, hd, bn⟩)

/-- `Job.setup_output_file_mirrors` (lines 503-508). -/
def setup_output_file_mirrors (files : List String) (dir : String) :
    List FileMirror :=
  files.map (fun ofile =>
    let bn := basename ofile
    let hd := if strStartsWith ofile "/hdfs" then ofile else pjoin dir bn
    ⟨ofile, hd, bn⟩)

/-- The `Job.manager` setter (lines 449-468): appends the owner's executable
and setup script to the input-file list when applicable, resolves the
effective HDFS mirror directory, and derives the input/output mirrors. -/
def managerSet (m : JobSet) (j : Job) : Job :=
  let files1 := j.input_files ++ (if m.copy_exe then [m.exe] else [])
  let files2 := files1 ++ (if optTruthy m.setup_script then [optVal m.setup_script] else [])
  let dir := if optTruthy j.hdfs_mirror_dir then optVal j.hdfs_mirror_dir
             else pjoin m.hdfs_store j.name
  { j with
      input_files := files2
      hdfs_mirror_dir := some dir
      input_file_mirrors := j.input_file_mirrors ++ setup_input_file_mirrors m files2 dir
      output_file_mirrors := j.output_file_mirrors ++ setup_output_file_mirrors j.output_files dir }

/-! ## Argument-string rendering (job_classes.py lines 534-594) -/

/-- The token list built by `Job.generate_job_arg_str` (lines 534-593),
threading the pair (job_args, new_args) through the same loops as the Python
code.  The first component accumulates the worker options, the second is the
rewritten copy of `self.args`. -/
def generate_job_arg_tokens (m : JobSet) (j : Job) : List String :=
  let job_args : List String :=
    if optTruthy m.setup_script then ["--setup", basename (optVal m.setup_script)] else []
  let s1 : List String × List String :=
    if m.transfer_hdfs_input then
      j.input_file_mirrors.foldl (fun s f =>
        (s.1 ++ ["--copyToLocal", f.hdfs, f.worker],
         s.2.map (fun a => if a == f.original then f.worker else a))) (job_args, j.args)
    else
      j.input_file_mirrors.foldl (fun s f =>
        (s.1 ++ (if !(strStartsWith f.original "/hdfs")
                 then ["--copyToLocal", f.hdfs, f.worker] else []),
         s.2.map (fun a => if a == f.original then f.hdfs else a))) (job_args, j.args)
  let s2 : List String × List String :=
    j.output_file_mirrors.foldl (fun s f =>
      (s.1 ++ ["--copyFromLocal", f.worker, f.hdfs],
       s.2.map (fun a => if a == f.original || a == f.hdfs then f.worker else a))) s1
  s2.1 ++ ["--exe", basename m.exe] ++ (if s2.2.isEmpty then [] else "--args" :: s2.2)

/-- `Job.generate_job_arg_str` (line 594): the tokens joined by spaces. -/
def generate_job_arg_str (m : JobSet) (j : Job) : String :=
  joinSep " " (generate_job_arg_tokens m j)

/-- The rewritten argument list exactly as claim C1 describes it: per input
mirror in list order, tokens equal to the mirror's original are rewritten to
the worker name (transfer enabled) or the HDFS path (disabled); then per
output mirror, tokens equal to the original or the HDFS path are rewritten to
the worker name. -/
def spec_rewritten_args (m : JobSet) (j : Job) : List String :=
  let a1 := j.input_file_mirrors.foldl (fun args f =>
    args.map (fun a =>
      if a == f.original then (if m.transfer_hdfs_input then f.worker else f.hdfs) else a)) j.args
  j.output_file_mirrors.foldl (fun args f =>
    args.map (fun a => if a == f.original || a == f.hdfs then f.worker else a)) a1

/-- The token list exactly as claim C1 states it: setup option, stage-in
options (all input mirrors when transfer-before-run is enabled, otherwise
only those not already on `/hdfs`), stage-out options, the executable, then
an unconditional terminal `--args` marker followed by the rewritten
arguments. -/
def spec_render_tokens (m : JobSet) (j : Job) : List String :=
  (if optTruthy m.setup_script then ["--setup", basename (optVal m.setup_script)] else [])
  ++ (j.input_file_mirrors.map (fun f =>
        if m.transfer_hdfs_input then ["--copyToLocal", f.hdfs, f.worker]
        else if !(strStartsWith f.original "/hdfs")
        then ["--copyToLocal", f.hdfs, f.worker] else [])).flatten
  ++ (j.output_file_mirrors.map (fun f => ["--copyFromLocal", f.worker, f.hdfs])).flatten
  ++ ["--exe", basename m.exe]
  ++ ("--args" :: spec_rewritten_args m j)

/-- Claim C1 amended: identical to `spec_render_tokens` except that the
`--args` marker and the rewritten arguments are emitted only when the
rewritten argument list is non-empty. -/
def spec_render_tokens_amended (m : JobSet) (j : Job) : List String :=
  (if optTruthy m.setup_script then ["--setup", basename (optVal m.setup_script)] else [])
  ++ (j.input_file_mirrors.map (fun f =>
        if m.transfer_hdfs_input then ["--copyToLocal", f.hdfs, f.worker]
        else if !(strStartsWith f.original "/hdfs")
        then ["--copyToLocal", f.hdfs, f.worker] else [])).flatten
  ++ (j.output_file_mirrors.map (fun f => ["--copyFromLocal", f.worker, f.hdfs])).flatten
  ++ ["--exe", basename m.exe]
  ++ (if (spec_rewritten_args m j).isEmpty then [] else "--args" :: spec_rewritten_args m j)

/-! ## Adding jobs to collections (job_classes.py lines 202-225 and 659-725) -/

/-- `JobSet.add_job` (lines 202-225).  The first component models a raised
`KeyError` (the `TypeError` branch cannot arise in the typed embedding); the
second component is the state of the `JobSet` when the call returns or the
exception propagates.  On success the stored job is the added job after its
`manager` setter ran. -/
def jobset_add_job (s : JobSet) (j : Job) : Option String × JobSet :=
  if j.name ∈ s.jobs.map Prod.fst then
    (some ("Job " ++ j.name ++ " already exists in JobSet"), s)
  else
    (none, { s with jobs := s.jobs ++ [(j.name, managerSet s j)] })

/-- One stored node of a `DAGMan` (the dict built at line 700): the job, its
DAG-level variable string, the retry count and the normalized list of
prerequisite names. -/
structure DagNode where
  job : Job
  job_vars : String
  retry : Option Nat
  requires : List String
deriving DecidableEq

/-- The ordered name-to-node mapping `DAGMan.jobs`. -/
abbrev DagJobs : Type := List (String × DagNode)

/-- The stored node names (`set(self.jobs)` ranges over these keys). -/
def dagKeys (dag : DagJobs) : List String := dag.map Prod.fst

/-- Lookup of `self.jobs[name]['requires']`; `none` models a `KeyError`. -/
def requiresOf (dag : DagJobs) (n : String) : Option (List String) :=
  (dag.find? (fun kv => kv.1 == n)).map (fun kv => kv.2.requires)

/-- `DAGMan.add_job` (lines 659-725).  The `requires` argument is taken
already normalized to a list of names (the Python code accepts a name, a Job,
or an iterable of either and normalizes to exactly such a list; a `retry`
value of `none` models `None`).  The job's manager is passed explicitly for
the `generate_job_arg_str` call at line 698.  As in `jobset_add_job`, the
first component models a raised `KeyError` and the second the mapping state
afterwards. -/
def dagman_add_job (dag : DagJobs) (m : JobSet) (j : Job) (requires : List String)
    (job_vars : Option String) (retry : Option Nat) : Option String × DagJobs :=
  if j.name ∈ dagKeys dag then (some "KeyError", dag)
  else
    let jv := (job_vars.getD "") ++ "jobOpts=\"" ++ generate_job_arg_str m j ++ "\""
    (none, dag ++ [(j.name, ⟨j, jv, retry, requires⟩)])

/-! ## DAG validation (job_classes.py lines 727-787) -/

/-- Result of `DAGMan.check_job_requirements` (lines 727-756): `ok` models a
normal return, `missing names` the `KeyError` whose message lists the
prerequisites without corresponding Job objects, `badJob` the `KeyError`
raised by `self.jobs[job_name]` for an unknown job. -/
inductive ReqResult where
  | ok : ReqResult
  | missing : List String → ReqResult
  | badJob : ReqResult
deriving DecidableEq

/-- `DAGMan.check_job_requirements` for a job given by name.  The missing
names are `set(requires) - set(jobs)`; Python's set iteration order is
unspecified, so the model lists them in first-occurrence order. -/
def check_job_requirements (dag : DagJobs) (jobName : String) : ReqResult :=
  match requiresOf dag jobName with
  | none => .badJob
  | some reqs =>
    let miss := reqs.dedup.filter (fun r => decide (r ∉ dagKeys dag))
    if miss.isEmpty then .ok else .missing miss

/-- Errors raised inside the `check_job_acyclic` walk: `keyErr p` is the
`KeyError` from `self.jobs[p]` for an unknown parent, `cycleErr j p` the
`RuntimeError` "j is in requirements for p". -/
inductive AcyclicErr where
  | keyErr : String → AcyclicErr
  | cycleErr : String → String → AcyclicErr
deriving DecidableEq

/-- Outcome of `DAGMan.check_job_acyclic`: `ok` models `return True`,
`err` a raised exception, and `nofuel` an execution longer than the supplied
fuel bound (the Python `while` loop has no such bound). -/
inductive AcyclicOutcome where
  | ok : AcyclicOutcome
  | nofuel : AcyclicOutcome
  | err : AcyclicErr → AcyclicOutcome
deriving DecidableEq

/-- One pass of the `for p in parents` body (lines 780-786): look up each
parent's requirements, raise if the checked job's name appears among them,
and concatenate them into `new_parents`. -/
def expandLevel (dag : DagJobs) (jobName : String) : List String → Except AcyclicErr (List String)
  | [] => .ok []
  | p :: rest =>
    match requiresOf dag p with
    | none => .error (.keyErr p)
    | some gps =>
      if jobName ∈ gps then .error (.cycleErr jobName p)
      else (expandLevel dag jobName rest).map (fun next => gps ++ next)

/-- The `while parents:` loop of `check_job_acyclic` (lines 778-787), with an
explicit fuel bound on the number of iterations. -/
def checkAcyclicAux (dag : DagJobs) (jobName : String) : Nat → List String → AcyclicOutcome
  | _, [] => .ok
  | 0, _ :: _ => .nofuel
  | fuel + 1, p :: rest =>
    match expandLevel dag jobName (p :: rest) with
    | .error e => .err e
    | .ok next => checkAcyclicAux dag jobName fuel next

/-- `DAGMan.check_job_acyclic` (lines 758-787) for a job given by name. -/
def check_job_acyclic (dag : DagJobs) (jobName : String) (fuel : Nat) : AcyclicOutcome :=
  match requiresOf dag jobName with
  | none => .err (.keyErr jobName)
  | some parents => checkAcyclicAux dag jobName fuel parents

/-- The prerequisite edge relation of a DAG: `stepR dag x y` holds when `y`
is listed among the stored requirements of node `x`. -/
def stepR (dag : DagJobs) (x y : String) : Prop :=
  ∃ reqs, requiresOf dag x = some reqs ∧ y ∈ reqs

/-- Every stored prerequisite name resolves to a stored node. -/
def DagClosed (dag : DagJobs) : Prop :=
  ∀ kv ∈ dag, ∀ r ∈ kv.2.requires, r ∈ dagKeys dag

/-- The prerequisite relation is acyclic under transitive closure. -/
def DagAcyclic (dag : DagJobs) : Prop :=
  ∀ n, ¬ Relation.TransGen (stepR dag) n n

/-! ## Submit-descriptor rendering (job_classes.py lines 239-318) -/

/-- Model of Python `s.replace(pat, rep)` on character lists (left-to-right,
non-overlapping; our patterns are never empty).  The fuel is an upper bound
on the recursion depth; a fuel of the list's length always suffices because
every step strictly shortens the list. -/
def replaceAllAux (pat rep : List Char) : Nat → List Char → List Char
  | _, [] => []
  | 0, l => l
  | fuel + 1, c :: rest =>
    if !pat.isEmpty && pat.isPrefixOf (c :: rest) then
      rep ++ replaceAllAux pat rep fuel ((c :: rest).drop pat.length)
    else
      c :: replaceAllAux pat rep fuel rest

def strReplace (s pat rep : String) : String :=
  ⟨replaceAllAux pat.data rep.data s.data.length s.data⟩

/-- Characters matched by the regex class `\w`. -/
def isWordChar (c : Char) : Bool := c.isAlphanum || c == '_'

/-- Scan for the matches of the regex `\x7b\w*\x7d` used at line 311
(`re.findall`): at each `\x7b`, the maximal run of word characters must be
followed by `\x7d`; matches are non-overlapping, left to right. -/
def findTokensAux : Nat → List Char → List (List Char)
  | 0, _ => []
  | _, [] => []
  | fuel + 1, c :: rest =>
    if c = '\x7b' then
      let run := rest.takeWhile isWordChar
      match rest.drop run.length with
      | '\x7d' :: tail => ('\x7b' :: (run ++ ['\x7d'])) :: findTokensAux fuel tail
      | _ => findTokensAux fuel rest
    else findTokensAux fuel rest

def findTokens (s : String) : List String :=
  (findTokensAux s.data.length s.data).map (fun l => ⟨l⟩)

/-- The wrapper script path substituted for `EXE_WRAPPER` (lines 270-271).
The source computes an absolute path from the module location on the host;
the model keeps the repository-relative path. -/
def worker_script : String := "../templates/condor_worker.py"

/-- `JobSet.generate_file_contents` (lines 239-318).  The `.error` branch
models the `IndexError` raised when the JobSet has no jobs.  Replacement
values that are falsy in Python (`None` or `''`, both modelled by `""`) are
skipped, jobs are appended in stored order (or a single placeholder in DAG
mode), and leftover `\x7b\w*\x7d` tokens are stripped. -/
def generate_file_contents (tpl : String) (s : JobSet) (dag_mode : Bool) :
    Except String String :=
  if s.jobs.isEmpty then .error "You have not added any jobs to this JobSet."
  else
    let other_args_str : String :=
      match s.other_job_args with
      | none => ""
      | some l => if l.isEmpty then "" else joinSep "\n" (l.map (fun kv => kv.1 ++ " = " ++ kv.2))
    let repls : List (String × String) :=
      [("EXE_WRAPPER", worker_script),
       ("STDOUT", pjoin s.out_dir s.out_file),
       ("STDERR", pjoin s.err_dir s.err_file),
       ("STDLOG", pjoin s.log_dir s.log_file),
       ("CPUS", toString s.cpus),
       ("MEMORY", s.memory),
       ("DISK", s.disk),
       ("TRANSFER_INPUT_FILES", joinSep "," s.transfer_input_files),
       ("TRANSFER_OUTPUT_FILES", joinSep "," s.transfer_input_files),
       ("OTHER_ARGS", other_args_str)]
    let t1 := repls.foldl (fun t kv =>
      if kv.2 == "" then t else strReplace t ("\x7b" ++ kv.1 ++ "\x7d") kv.2) tpl
    let t2 :=
      if dag_mode then t1 ++ "arguments=$(jobOpts)\n" ++ "queue\n"
      else s.jobs.foldl (fun t kv =>
        t ++ "\n# " ++ kv.1 ++ "\n"
          ++ "arguments=\"" ++ generate_job_arg_str s kv.2 ++ "\"\n"
          ++ "\nqueue " ++ toString kv.2.quantity ++ "\n") t1
    let t3 := (findTokens t2).foldl (fun t tok => strReplace t tok "") t2
    .ok t3

/-- Count of (possibly overlapping) occurrences of a pattern in a character
list. -/
def countOccAux (pat : List Char) : List Char → Nat
  | [] => 0
  | c :: rest => (if pat.isPrefixOf (c :: rest) then 1 else 0) + countOccAux pat rest

/-- Number of occurrences of `pat` in `s`. -/
def countOcc (s pat : String) : Nat := countOccAux pat.data s.data

def exceptIsOk : Except String String → Bool
  | .ok _ => true
  | .error _ => false

def exceptGetD : Except String String → String → String
  | .ok s, _ => s
  | .error _, d => d

/-! ## JobSet constructor transfer lists (job_classes.py lines 156-163) -/

/-- The net effect of `JobSet.__init__` lines 156-163 on the stored
`transfer_input_files` / `transfer_output_files` attributes, given the
constructor arguments (`none` models `None`).  A `none` result models the
`TypeError` raised by slicing `None`. -/
def jobset_init_transfer_lists (tin tout : Option (List String)) :
    Option (List String × List String) :=
  let tin2 := if listTruthy tout then tin else some []
  match tin2 with
  | none => none
  | some li =>
    let tout2 := if listTruthy tout then tout else some []
    match tout2 with
    | none => none
    | some lo => some (li, lo)

/-! ## Concrete instances used by the claims -/

/-- A baseline `JobSet` with the constructor's default flags
(`copy_exe=True`, no setup script, `transfer_hdfs_input=True`,
`share_exe_setup=False`). -/
def demoJobSet : JobSet :=
  { exe := "./myexe", copy_exe := true, setup_script := none,
    filename := "jobs.condor",
    out_dir := "/logs", out_file := "o.out",
    err_dir := "/logs", err_file := "e.err",
    log_dir := "/logs", log_file := "l.log",
    cpus := 1, memory := "100MB", disk := "100MB",
    transfer_hdfs_input := true, share_exe_setup := false,
    transfer_input_files := [], transfer_output_files := [],
    hdfs_store := "/hdfs/user/alice", jobs := [], other_job_args := none }

/-- The owner of claim C2's example job: shared root `/store/alice`,
transfer-before-run enabled. -/
def sumJobSet : JobSet := { demoJobSet with hdfs_store := "/store/alice" }

/-- Claim C2's example job `sum`, attached to its owner. -/
def sumJob : Job :=
  managerSet sumJobSet
    { name := "sum", args := ["--in", "/store/data.txt", "--out", "result.txt"],
      input_files := ["/store/data.txt"], output_files := ["result.txt"],
      quantity := 1, input_file_mirrors := [], output_file_mirrors := [],
      hdfs_mirror_dir := none }

/-- An owner that neither copies its executable nor has a setup script. -/
def ceJobSet : JobSet := { demoJobSet with copy_exe := false }

/-- An attached job with an empty argument list (claim C1's edge case). -/
def ceJob : Job :=
  managerSet ceJobSet
    { name := "noargs", args := [], input_files := [], output_files := [],
      quantity := 1, input_file_mirrors := [], output_file_mirrors := [],
      hdfs_mirror_dir := none }

/-- A job carrying only a name (the DAG checks read nothing else). -/
def dummyJob (n : String) : Job := ⟨n, [], [], [], 1, [], [], none⟩

/-- A stored DAG node with the given name and prerequisite names. -/
def mkNode (n : String) (reqs : List String) : String × DagNode :=
  (n, ⟨dummyJob n, "", none, reqs⟩)

/-- Claim C4's acyclic graph: A with no prerequisites, B requires A,
C requires B. -/
def dagAcy : DagJobs := [mkNode "A" [], mkNode "B" ["A"], mkNode "C" ["B"]]

/-- Claim C4's cyclic graph: additionally A requires C. -/
def dagCyc : DagJobs := [mkNode "A" ["C"], mkNode "B" ["A"], mkNode "C" ["B"]]

/-- A DAG whose only node requires a name that was never added. -/
def dagMiss : DagJobs := [mkNode "X" ["Y"]]

/-- A `JobSet` already holding a job named `dup`. -/
def dupJobSet : JobSet := { demoJobSet with jobs := [("dup", dummyJob "dup")] }

/-- A DAG already holding a node named `dup`. -/
def dupDag : DagJobs := [mkNode "dup" []]

/-- An owner with both an executable to copy and a setup script. -/
def attJobSet : JobSet :=
  { demoJobSet with setup_script := some "setup.sh", hdfs_store := "/hdfs/store" }

/-- A freshly constructed job, not yet attached. -/
def attJob : Job :=
  { name := "j8", args := ["in.txt"], input_files := ["in.txt"],
    output_files := ["out.txt"], quantity := 1,
    input_file_mirrors := [], output_file_mirrors := [], hdfs_mirror_dir := none }

/-- Modelled from the spec: the submit-descriptor template
`htcondenser/templates/job.condor` is not under `src/`; per spec section 6 it
is "a submit-descriptor template with named token placeholders" for the
resource / path / executable-wrapper tokens, and the `queue` directives are
appended by `generate_file_contents` itself.  Modelled as a minimal template
holding exactly those placeholders. -/
def jobCondorTemplate : String :=
  "executable = \x7bEXE_WRAPPER\x7d\noutput = \x7bSTDOUT\x7d\nerror = \x7bSTDERR\x7d\nlog = \x7bSTDLOG\x7d\nrequest_cpus = \x7bCPUS\x7d\nrequest_memory = \x7bMEMORY\x7d\nrequest_disk = \x7bDISK\x7d\ntransfer_input_files = \x7bTRANSFER_INPUT_FILES\x7d\n\x7bOTHER_ARGS\x7d\n"

/-- Claim C7's single job, attached to the baseline owner. -/
def oneJob : Job :=
  managerSet demoJobSet
    { name := "j1", args := ["--opt", "v"], input_files := [], output_files := [],
      quantity := 1, input_file_mirrors := [], output_file_mirrors := [],
      hdfs_mirror_dir := none }

/-- Claim C7's `JobSet` holding exactly one job. -/
def oneJobSet : JobSet := { demoJobSet with jobs := [("j1", oneJob)] }

/-- Whether a `check_job_acyclic` outcome is a raised exception. -/
def isErr : AcyclicOutcome → Bool
  | .err _ => true
  | _ => false

/-- The expected descriptor for `oneJobSet` rendered from the modelled
template (the value of `generate_file_contents jobCondorTemplate oneJobSet
false`). -/
def oneJobDescriptor : String :=
  "executable = ../templates/condor_worker.py\noutput = /logs/o.out\nerror = /logs/e.err\nlog = /logs/l.log\nrequest_cpus = 1\nrequest_memory = 100MB\nrequest_disk = 100MB\ntransfer_input_files = \n\n\n# j1\narguments=\"--copyToLocal /hdfs/user/alice/j1/myexe myexe --exe myexe --args --opt v\"\n\nqueue 1\n"

set_option maxRecDepth 100000

/-! ## Helper lemmas -/

theorem basenameAux_no_slash (l : List Char) :
    ∀ acc, '/' ∉ acc → '/' ∉ basenameAux acc l := by
  induction l with
  | nil => intro acc h; simpa [basenameAux] using h
  | cons c rest ih =>
    intro acc h
    simp only [basenameAux]
    by_cases hc : c = '/'
    · rw [if_pos hc]
      exact ih [] (by simp)
    · rw [if_neg hc]
      refine ih (acc ++ [c]) ?_
      intro hm
      rcases List.mem_append.mp hm with h1 | h1
      · exact h h1
      · have h2 : '/' = c := by simpa using h1
        exact hc h2.symm

theorem basename_not_abs (p : String) : strStartsWith (basename p) "/" = false := by
  have h := basenameAux_no_slash p.data [] (by simp)
  have hdata : ("/" : String).data = ['/'] := rfl
  unfold strStartsWith basename
  rw [hdata]
  cases hb : basenameAux [] p.data with
  | nil => rfl
  | cons c t =>
    rw [hb] at h
    have hc : ('/' == c) = false := by
      refine beq_eq_false_iff_ne.mpr ?_
      intro hh
      exact h (hh ▸ List.mem_cons_self c t)
    simp [List.isPrefixOf, hc]

theorem pjoin_eq (a b : String) (h1 : (a == "") = false)
    (h2 : strEndsWith a "/" = false) (h3 : strStartsWith b "/" = false) :
    pjoin a b = a ++ "/" ++ b := by
  simp [pjoin, h1, h2, h3]

/-! ## Claim theorems -/

/-- C1, counterexample: for a job with an empty argument list the code emits
no terminal `--args` marker, while the claim's rendering always does. -/
theorem claim_c1_counterexample :
    generate_job_arg_tokens ceJobSet ceJob ≠ spec_render_tokens ceJobSet ceJob := by
  decide

theorem foldl_copy_true (l : List FileMirror) (ja na : List String) :
    l.foldl (fun s f =>
      (s.1 ++ ["--copyToLocal", f.hdfs, f.worker],
       s.2.map (fun a => if a == f.original then f.worker else a))) (ja, na)
    = (ja ++ (l.map (fun f => ["--copyToLocal", f.hdfs, f.worker])).flatten,
       l.foldl (fun na2 f => na2.map (fun a => if a == f.original then f.worker else a)) na) := by
  induction l generalizing ja na with
  | nil => simp
  | cons f fs ih =>
    simp only [List.foldl_cons, List.map_cons, List.flatten_cons]
    rw [ih]
    simp [List.append_assoc]

theorem foldl_copy_false (l : List FileMirror) (ja na : List String) :
    l.foldl (fun s f =>
      (s.1 ++ (if !(strStartsWith f.original "/hdfs")
               then ["--copyToLocal", f.hdfs, f.worker] else []),
       s.2.map (fun a => if a == f.original then f.hdfs else a))) (ja, na)
    = (ja ++ (l.map (fun f => if !(strStartsWith f.original "/hdfs")
                              then ["--copyToLocal", f.hdfs, f.worker] else [])).flatten,
       l.foldl (fun na2 f => na2.map (fun a => if a == f.original then f.hdfs else a)) na) := by
  induction l generalizing ja na with
  | nil => simp
  | cons f fs ih =>
    simp only [List.foldl_cons, List.map_cons, List.flatten_cons]
    rw [ih]
    simp [List.append_assoc]

theorem foldl_copy_out (l : List FileMirror) (ja na : List String) :
    l.foldl (fun s f =>
      (s.1 ++ ["--copyFromLocal", f.worker, f.hdfs],
       s.2.map (fun a => if a == f.original || a == f.hdfs then f.worker else a))) (ja, na)
    = (ja ++ (l.map (fun f => ["--copyFromLocal", f.worker, f.hdfs])).flatten,
       l.foldl (fun na2 f => na2.map (fun a => if a == f.original || a == f.hdfs then f.worker else a)) na) := by
  induction l generalizing ja na with
  | nil => simp
  | cons f fs ih =>
    simp only [List.foldl_cons, List.map_cons, List.flatten_cons]
    rw [ih]
    simp [List.append_assoc]

/-- C1 (amended): `generate_job_arg_str` produces its tokens in exactly the
claimed order -- setup option, stage-in options, stage-out options,
executable -- except that the terminal `--args` marker and the rewritten
arguments are emitted only when the rewritten argument list is non-empty
(for a job with no arguments the string ends at `--exe <basename>`). -/
theorem claim_c1 (m : JobSet) (j : Job) :
    generate_job_arg_tokens m j = spec_render_tokens_amended m j := by
  unfold generate_job_arg_tokens spec_render_tokens_amended spec_rewritten_args
  cases htr : m.transfer_hdfs_input with
  | true =>
    simp only [reduceIte]
    rw [foldl_copy_true, foldl_copy_out]
  | false =>
    simp only [Bool.false_eq_true, if_false, reduceIte]
    rw [foldl_copy_false, foldl_copy_out]

/-- C2: for the example job `sum` the rendered token list contains the
stage-in instruction for the input mirror, contains the stage-out
instruction for the output mirror, rewrites the original input path away in
favour of the worker-local name, and ends with
`--exe myexe --args --in data.txt --out result.txt`. -/
theorem claim_c2 :
    ["--copyToLocal", "/store/alice/sum/data.txt", "data.txt"]
        <:+: generate_job_arg_tokens sumJobSet sumJob
  ∧ ["--copyFromLocal", "result.txt", "/store/alice/sum/result.txt"]
        <:+: generate_job_arg_tokens sumJobSet sumJob
  ∧ ["--exe", "myexe", "--args", "--in", "data.txt", "--out", "result.txt"]
        <:+ generate_job_arg_tokens sumJobSet sumJob
  ∧ "/store/data.txt" ∉ generate_job_arg_tokens sumJobSet sumJob
  ∧ "data.txt" ∈ generate_job_arg_tokens sumJobSet sumJob := by
  decide

/-- C3: for every derived mirror, if the original lies under `/hdfs`
(literal prefix match) then its HDFS path equals the original; otherwise it
is the resolved mirror root, a literal `/`, and the file's basename.  The
root hypotheses rule out degenerate roots for which `os.path.join` would not
insert a separator. -/
theorem claim_c3 (m : JobSet) (files_in files_out : List String) (dir : String)
    (hd1 : (dir == "") = false) (hd2 : strEndsWith dir "/" = false)
    (hs1 : (m.hdfs_store == "") = false) (hs2 : strEndsWith m.hdfs_store "/" = false) :
    (∀ mir ∈ setup_input_file_mirrors m files_in dir,
       (strStartsWith mir.original "/hdfs" = true → mir.hdfs = mir.original) ∧
       (strStartsWith mir.original "/hdfs" = false →
          mir.hdfs = mirror_dir_for m dir mir.original ++ "/" ++ basename mir.original))
  ∧ (∀ mir ∈ setup_output_file_mirrors files_out dir,
       (strStartsWith mir.original "/hdfs" = true → mir.hdfs = mir.original) ∧
       (strStartsWith mir.original "/hdfs" = false →
          mir.hdfs = dir ++ "/" ++ basename mir.original)) := by
  constructor
  · intro mir hm
    obtain ⟨f, hf, rfl⟩ := List.mem_map.mp hm
    constructor
    · intro h; simp [h]
    · intro h
      have hroot1 : (mirror_dir_for m dir f == "") = false := by
        unfold mirror_dir_for
        split
        · exact hs1
        · exact hd1
      have hroot2 : strEndsWith (mirror_dir_for m dir f) "/" = false := by
        unfold mirror_dir_for
        split
        · exact hs2
        · exact hd2
      simp only [h, Bool.false_eq_true, if_false]
      exact pjoin_eq _ _ hroot1 hroot2 (basename_not_abs f)
  · intro mir hm
    obtain ⟨f, hf, rfl⟩ := List.mem_map.mp hm
    constructor
    · intro h; simp [h]
    · intro h
      simp only [h, Bool.false_eq_true, if_false]
      exact pjoin_eq _ _ hd1 hd2 (basename_not_abs f)

/-- C3, witness: the non-`/hdfs` input `/u/z.txt` is mirrored under the
per-job root while keeping its basename. -/
theorem claim_c3_witness :
    FileMirror.hdfs ⟨"/u/z.txt", "/store/j/z.txt", "z.txt"⟩
      = mirror_dir_for demoJobSet "/store/j" "/u/z.txt" ++ "/"
          ++ basename "/u/z.txt" :=
  ((claim_c3 demoJobSet ["/u/z.txt"] [] "/store/j"
      (by decide) (by decide) (by decide) (by decide)).1
    ⟨"/u/z.txt", "/store/j/z.txt", "z.txt"⟩ (by decide)).2 (by decide)

/-- C4: in the three-node chain A, B requires A, C requires B, the acyclic
check returns True for every node; after closing the cycle by making A
require C, it raises for each of A, B and C, although no node requires
itself directly (the cycle has length three and is only found through the
transitive breadth-first expansion). -/
theorem claim_c4 :
    (check_job_acyclic dagAcy "A" 10 = .ok
      ∧ check_job_acyclic dagAcy "B" 10 = .ok
      ∧ check_job_acyclic dagAcy "C" 10 = .ok)
  ∧ (isErr (check_job_acyclic dagCyc "A" 10) = true
      ∨ isErr (check_job_acyclic dagCyc "B" 10) = true
      ∨ isErr (check_job_acyclic dagCyc "C" 10) = true)
  ∧ (∀ kv ∈ dagCyc, kv.1 ∉ kv.2.requires) := by
  decide

/-- C5: `check_job_requirements` returns normally when every prerequisite
name of the node resolves to a stored node, and otherwise raises an error
listing exactly the prerequisites without corresponding nodes. -/
theorem claim_c5 (dag : DagJobs) (n : String) (reqs : List String)
    (h : requiresOf dag n = some reqs) :
    ((∀ r ∈ reqs, r ∈ dagKeys dag) → check_job_requirements dag n = .ok)
  ∧ (∀ r ∈ reqs, r ∉ dagKeys dag →
      ∃ ms, check_job_requirements dag n = .missing ms ∧ r ∈ ms ∧
        ∀ x ∈ ms, x ∈ reqs ∧ x ∉ dagKeys dag) := by
  have hred : check_job_requirements dag n =
      (if (reqs.dedup.filter (fun r => decide (r ∉ dagKeys dag))).isEmpty then .ok
       else .missing (reqs.dedup.filter (fun r => decide (r ∉ dagKeys dag)))) := by
    unfold check_job_requirements
    rw [h]
  constructor
  · intro hall
    have hnil : reqs.dedup.filter (fun r => decide (r ∉ dagKeys dag)) = [] := by
      refine List.filter_eq_nil_iff.mpr ?_
      intro a ha
      simp only [decide_eq_true_eq, Decidable.not_not]
      exact hall a (List.mem_dedup.mp ha)
    rw [hred, hnil]
    rfl
  · intro r hr hnot
    have hmem : r ∈ reqs.dedup.filter (fun r => decide (r ∉ dagKeys dag)) := by
      rw [List.mem_filter]
      exact ⟨List.mem_dedup.mpr hr, by simpa using hnot⟩
    have hne : (reqs.dedup.filter (fun r => decide (r ∉ dagKeys dag))).isEmpty = false := by
      rcases hy : (reqs.dedup.filter (fun r => decide (r ∉ dagKeys dag))) with _ | ⟨a, t⟩
      · rw [hy] at hmem; cases hmem
      · rfl
    refine ⟨reqs.dedup.filter (fun r => decide (r ∉ dagKeys dag)), ?_, hmem, ?_⟩
    · rw [hred, hne]
      rfl
    · intro x hx
      rw [List.mem_filter] at hx
      exact ⟨List.mem_dedup.mp hx.1, by simpa using hx.2⟩

/-- C5, witness: node X requires the never-added name Y and the check
reports exactly Y as missing. -/
theorem claim_c5_witness :
    ∃ ms, check_job_requirements dagMiss "X" = .missing ms ∧ "Y" ∈ ms ∧
      ∀ x ∈ ms, x ∈ ["Y"] ∧ x ∉ dagKeys dagMiss :=
  (claim_c5 dagMiss "X" ["Y"] rfl).2 "Y" (by decide) (by decide)

/-- C6: adding a job whose name is already stored fails with the
duplicate-name error and leaves the stored mapping unchanged, both for a
`JobSet` and for a `DAGMan`. -/
theorem claim_c6 :
    (∀ (s : JobSet) (j : Job), j.name ∈ s.jobs.map Prod.fst →
       (jobset_add_job s j).1.isSome = true ∧ (jobset_add_job s j).2 = s)
  ∧ (∀ (dag : DagJobs) (m : JobSet) (j : Job) (reqs : List String)
       (jv : Option String) (retry : Option Nat), j.name ∈ dagKeys dag →
       (dagman_add_job dag m j reqs jv retry).1.isSome = true
         ∧ (dagman_add_job dag m j reqs jv retry).2 = dag) := by
  constructor
  · intro s j h
    simp [jobset_add_job, h]
  · intro dag m j reqs jv retry h
    simp [dagman_add_job, h]

/-- C6, witness: adding a second job named `dup` fails and leaves both
collections unchanged. -/
theorem claim_c6_witness :
    ((jobset_add_job dupJobSet (dummyJob "dup")).1.isSome = true
      ∧ (jobset_add_job dupJobSet (dummyJob "dup")).2 = dupJobSet)
  ∧ ((dagman_add_job dupDag demoJobSet (dummyJob "dup") [] none none).1.isSome = true
      ∧ (dagman_add_job dupDag demoJobSet (dummyJob "dup") [] none none).2 = dupDag) :=
  ⟨claim_c6.1 dupJobSet (dummyJob "dup") (by decide),
   claim_c6.2 dupDag demoJobSet (dummyJob "dup") [] none none (by decide)⟩

/-- C7: `generate_file_contents` raises for every JobSet holding no jobs,
whatever the template and mode; for the concrete JobSet holding exactly one
job (quantity 1) in non-DAG mode it succeeds, and the produced descriptor
contains the string `queue` exactly once, namely in the directive
`queue <quantity>`. -/
theorem claim_c7 :
    (∀ (tpl : String) (s : JobSet) (dm : Bool), s.jobs = [] →
       generate_file_contents tpl s dm
         = .error "You have not added any jobs to this JobSet.")
  ∧ generate_file_contents jobCondorTemplate oneJobSet false = .ok oneJobDescriptor
  ∧ countOcc oneJobDescriptor "queue" = 1
  ∧ countOcc oneJobDescriptor ("queue " ++ toString oneJob.quantity) = 1 := by
  refine ⟨?_, rfl, by decide, by decide⟩
  intro tpl s dm h
  simp [generate_file_contents, h]

/-- C7, witness: the empty baseline JobSet makes rendering fail. -/
theorem claim_c7_witness :
    generate_file_contents jobCondorTemplate demoJobSet false
      = .error "You have not added any jobs to this JobSet." :=
  claim_c7.1 jobCondorTemplate demoJobSet false rfl

/-- C8: on attachment with the owner copying its executable and having a
setup script, both are appended (in that order) to the job's input files;
the mirror directory resolves to the explicit override when one is set and
otherwise to `<owner.hdfs_store>/<job.name>`; and the stored mirror lists
are exactly the ones derived from the final input-file list (respectively
the output-file list) and the resolved directory. -/
theorem claim_c8 (m : JobSet) (j : Job)
    (hce : m.copy_exe = true) (hss : optTruthy m.setup_script = true)
    (hmi : j.input_file_mirrors = []) (hmo : j.output_file_mirrors = [])
    (hs1 : (m.hdfs_store == "") = false) (hs2 : strEndsWith m.hdfs_store "/" = false)
    (hs3 : strStartsWith j.name "/" = false) :
    (managerSet m j).input_files = j.input_files ++ [m.exe, optVal m.setup_script]
  ∧ (optTruthy j.hdfs_mirror_dir = true →
       (managerSet m j).hdfs_mirror_dir = some (optVal j.hdfs_mirror_dir))
  ∧ (optTruthy j.hdfs_mirror_dir = false →
       (managerSet m j).hdfs_mirror_dir = some (m.hdfs_store ++ "/" ++ j.name))
  ∧ (managerSet m j).input_file_mirrors
      = setup_input_file_mirrors m (managerSet m j).input_files
          (optVal (managerSet m j).hdfs_mirror_dir)
  ∧ (managerSet m j).output_file_mirrors
      = setup_output_file_mirrors j.output_files
          (optVal (managerSet m j).hdfs_mirror_dir) := by
  refine ⟨?_, ?_, ?_, ?_, ?_⟩
  · simp [managerSet, hce, hss]
  · intro hov
    simp [managerSet, hov]
  · intro hov
    simp only [managerSet, hov, Bool.false_eq_true, if_false]
    rw [pjoin_eq m.hdfs_store j.name hs1 hs2 hs3]
  · simp [managerSet, hmi, optVal]
  · simp [managerSet, hmo, optVal]

/-- C8, witness: attaching a fresh job to an owner with executable copying
and a setup script appends both files and resolves the derived mirror
directory. -/
theorem claim_c8_witness :
    (managerSet attJobSet attJob).input_files
      = attJob.input_files ++ [attJobSet.exe, optVal attJobSet.setup_script]
  ∧ (managerSet attJobSet attJob).hdfs_mirror_dir
      = some (attJobSet.hdfs_store ++ "/" ++ attJob.name) :=
  ⟨(claim_c8 attJobSet attJob (by decide) (by decide) (by decide) (by decide)
      (by decide) (by decide) (by decide)).1,
   (claim_c8 attJobSet attJob (by decide) (by decide) (by decide) (by decide)
      (by decide) (by decide) (by decide)).2.2.1 (by decide)⟩

/-- C10: whenever the constructor's `transfer_output_files` argument is
falsy (omitted or empty), the stored `transfer_input_files` attribute is the
empty list, whatever input list the caller passed. -/
theorem claim_c10 (tin tout : Option (List String))
    (h : listTruthy tout = false) :
    jobset_init_transfer_lists tin tout = some ([], []) := by
  simp [jobset_init_transfer_lists, h]

/-- C10, witness: a non-empty bulk input list is discarded when no output
list is given. -/
theorem claim_c10_witness :
    jobset_init_transfer_lists (some ["a", "b"]) none = some ([], []) :=
  claim_c10 (some ["a", "b"]) none rfl

/-! ## Termination of the acyclicity walk (claim C9) -/

theorem requiresOf_isSome_of_mem_keys (dag : DagJobs) (n : String)
    (h : n ∈ dagKeys dag) : ∃ reqs, requiresOf dag n = some reqs := by
  unfold dagKeys at h
  obtain ⟨kv, hkv, hfst⟩ := List.mem_map.mp h
  have hsome : (dag.find? (fun kv => kv.1 == n)).isSome = true := by
    refine List.find?_isSome.mpr ⟨kv, hkv, ?_⟩
    simp [hfst]
  obtain ⟨kv2, hkv2⟩ := Option.isSome_iff_exists.mp hsome
  exact ⟨kv2.2.requires, by simp [requiresOf, hkv2]⟩

theorem stepR_target_mem_keys (dag : DagJobs) (hc : DagClosed dag) {x y : String}
    (h : stepR dag x y) : y ∈ dagKeys dag := by
  obtain ⟨reqs, hreq, hy⟩ := h
  unfold requiresOf at hreq
  obtain ⟨kv, hfind, hreq2⟩ := Option.map_eq_some'.mp hreq
  have hkv : kv ∈ dag := List.mem_of_find?_eq_some hfind
  refine hc kv hkv y ?_
  rw [show kv.2.requires = reqs from hreq2]
  exact hy

theorem chain_reaches (R : String → String → Prop) :
    ∀ (l : List String) (a b : String),
      List.Chain R a l → b ∈ l → Relation.TransGen R a b := by
  intro l
  induction l with
  | nil => intro a b _ hb; cases hb
  | cons c t ih =>
    intro a b hch hb
    rw [List.chain_cons] at hch
    rcases List.mem_cons.mp hb with rfl | hb2
    · exact Relation.TransGen.single hch.1
    · exact Relation.TransGen.head hch.1 (ih c b hch.2 hb2)

theorem chain_dup_cycle (R : String → String → Prop) :
    ∀ (l : List String) (a : String), List.Chain R a l → ¬(a :: l).Nodup →
      ∃ x, Relation.TransGen R x x := by
  intro l
  induction l with
  | nil =>
    intro a _ hnd
    exact absurd (List.nodup_cons.mpr ⟨by simp, List.nodup_nil⟩) hnd
  | cons c t ih =>
    intro a hch hnd
    by_cases ha : a ∈ c :: t
    · exact ⟨a, chain_reaches R (c :: t) a a hch ha⟩
    · have hch2 := (List.chain_cons.mp hch).2
      have hnd2 : ¬(c :: t).Nodup := fun hh => hnd (List.nodup_cons.mpr ⟨ha, hh⟩)
      exact ih c hch2 hnd2

theorem chain_mem_keys (dag : DagJobs) (hc : DagClosed dag) :
    ∀ (l : List String) (a : String),
      List.Chain (stepR dag) a l → ∀ y ∈ l, y ∈ dagKeys dag := by
  intro l
  induction l with
  | nil => intro a _ y hy; cases hy
  | cons c t ih =>
    intro a hch y hy
    rw [List.chain_cons] at hch
    rcases List.mem_cons.mp hy with rfl | hy2
    · exact stepR_target_mem_keys dag hc hch.1
    · exact ih c hch.2 y hy2

/-- In a closed acyclic DAG, a prerequisite chain starting at a stored node
never revisits a node, so it is no longer than the number of stored nodes. -/
theorem chain_length_bound (dag : DagJobs) (hc : DagClosed dag) (ha : DagAcyclic dag)
    (n : String) (hn : n ∈ dagKeys dag) (l : List String)
    (hch : List.Chain (stepR dag) n l) : l.length + 1 ≤ (dagKeys dag).length := by
  by_cases hnd : (n :: l).Nodup
  · have hsub : (n :: l) ⊆ dagKeys dag := by
      intro x hx
      rcases List.mem_cons.mp hx with rfl | hx2
      · exact hn
      · exact chain_mem_keys dag hc l n hch x hx2
    have hle := (List.subperm_of_subset hnd hsub).length_le
    simpa using hle
  · obtain ⟨x, hx⟩ := chain_dup_cycle (stepR dag) l n hch hnd
    exact absurd hx (ha x)

/-- One level expansion succeeds in a closed acyclic DAG, and the new level's
members are reachable by chains one step longer. -/
theorem expand_ok (dag : DagJobs) (hc : DagClosed dag) (ha : DagAcyclic dag)
    (n : String) (d : Nat) :
    ∀ (parents : List String),
      (∀ p ∈ parents, ∃ c : List String, c.length = d ∧
          List.Chain (stepR dag) n (c ++ [p])) →
      ∃ next, expandLevel dag n parents = .ok next ∧
        ∀ q ∈ next, ∃ c : List String, c.length = d + 1 ∧
          List.Chain (stepR dag) n (c ++ [q]) := by
  intro parents
  induction parents with
  | nil =>
    intro _
    exact ⟨[], rfl, by intro q hq; cases hq⟩
  | cons p rest ih =>
    intro hinv
    obtain ⟨c, hclen, hch⟩ := hinv p (List.mem_cons_self p rest)
    have hpmem : p ∈ dagKeys dag := by
      refine chain_mem_keys dag hc (c ++ [p]) n hch p ?_
      simp
    obtain ⟨gps, hgps⟩ := requiresOf_isSome_of_mem_keys dag p hpmem
    have hreach : Relation.TransGen (stepR dag) n p :=
      chain_reaches (stepR dag) (c ++ [p]) n p hch (by simp)
    have hnotin : n ∉ gps := by
      intro hin
      exact ha n (Relation.TransGen.tail hreach ⟨gps, hgps, hin⟩)
    obtain ⟨nextr, hnextr, hinvr⟩ := ih (fun q hq => hinv q (List.mem_cons_of_mem p hq))
    refine ⟨gps ++ nextr, ?_, ?_⟩
    · simp only [expandLevel, hgps]
      rw [if_neg hnotin, hnextr]
      rfl
    · intro q hq
      rcases List.mem_append.mp hq with hq1 | hq2
      · refine ⟨c ++ [p], by simp [hclen], ?_⟩
        have hstep : stepR dag p q := ⟨gps, hgps, hq1⟩
        have hch2 : List.Chain (stepR dag) n (c ++ p :: [q]) := by
          rw [List.chain_split]
          exact ⟨hch, List.chain_singleton.mpr hstep⟩
        simpa [List.append_assoc] using hch2
      · exact hinvr q hq2

/-- The fueled walk returns `ok` once the fuel covers the remaining possible
chain lengths. -/
theorem checkAux_ok (dag : DagJobs) (hc : DagClosed dag) (ha : DagAcyclic dag)
    (n : String) (hn : n ∈ dagKeys dag) :
    ∀ (fuel : Nat), ∀ (d : Nat) (parents : List String),
      (dagKeys dag).length ≤ d + fuel →
      (∀ p ∈ parents, ∃ c : List String, c.length = d ∧
          List.Chain (stepR dag) n (c ++ [p])) →
      checkAcyclicAux dag n fuel parents = .ok := by
  intro fuel
  induction fuel with
  | zero =>
    intro d parents hfd hinv
    cases parents with
    | nil => rfl
    | cons p rest =>
      exfalso
      obtain ⟨c, hclen, hch⟩ := hinv p (List.mem_cons_self p rest)
      have hb := chain_length_bound dag hc ha n hn (c ++ [p]) hch
      simp only [List.length_append, List.length_cons, List.length_nil, hclen] at hb
      omega
  | succ fuel ih =>
    intro d parents hfd hinv
    cases parents with
    | nil => rfl
    | cons p rest =>
      obtain ⟨next, hexp, hinv2⟩ := expand_ok dag hc ha n d (p :: rest) hinv
      have hred : checkAcyclicAux dag n (fuel + 1) (p :: rest)
          = checkAcyclicAux dag n fuel next := by
        simp only [checkAcyclicAux, hexp]
      rw [hred]
      exact ih (d + 1) next (by omega) hinv2

/-- C9: in a DAG where every stored prerequisite name resolves to a stored
node and the prerequisite relation is acyclic under transitive closure, the
breadth-first walk of `check_job_acyclic` terminates for every stored node
and returns True: some fuel bound suffices and every larger bound gives the
same `ok` outcome. -/
theorem claim_c9 (dag : DagJobs) (n : String) (hc : DagClosed dag)
    (ha : DagAcyclic dag) (hn : n ∈ dagKeys dag) :
    ∃ fuel, ∀ f, fuel ≤ f → check_job_acyclic dag n f = .ok := by
  obtain ⟨parents, hpar⟩ := requiresOf_isSome_of_mem_keys dag n hn
  refine ⟨(dagKeys dag).length, ?_⟩
  intro f hf
  unfold check_job_acyclic
  rw [hpar]
  refine checkAux_ok dag hc ha n hn f 0 parents (by omega) ?_
  intro p hp
  exact ⟨[], rfl, List.chain_singleton.mpr ⟨parents, hpar, hp⟩⟩

/-- A ranking argument: if some numeric rank strictly drops along every
prerequisite edge, the DAG is acyclic. -/
theorem rank_acyclic (dag : DagJobs) (rank : String → Nat)
    (h : ∀ x y, stepR dag x y → rank y < rank x) : DagAcyclic dag := by
  have hlt : ∀ a b, Relation.TransGen (stepR dag) a b → rank b < rank a := by
    intro a b hab
    induction hab with
    | single h1 => exact h _ _ h1
    | tail _ h2 ih => exact lt_trans (h _ _ h2) ih
  intro n hn
  exact absurd (hlt n n hn) (lt_irrefl _)

/-- The chain A, B requires A, C requires B is acyclic. -/
theorem dagAcy_acyclic : DagAcyclic dagAcy := by
  refine rank_acyclic dagAcy
    (fun s => if s == "C" then 2 else if s == "B" then 1 else 0) ?_
  intro x y hst
  obtain ⟨reqs, hreq, hy⟩ := hst
  by_cases hA : x = "A"
  · subst hA
    rw [show requiresOf dagAcy "A" = some [] from rfl] at hreq
    obtain rfl := Option.some.inj hreq
    cases hy
  · by_cases hB : x = "B"
    · subst hB
      rw [show requiresOf dagAcy "B" = some ["A"] from rfl] at hreq
      obtain rfl := Option.some.inj hreq
      have hya : y = "A" := by simpa using hy
      subst hya
      decide
    · by_cases hC : x = "C"
      · subst hC
        rw [show requiresOf dagAcy "C" = some ["B"] from rfl] at hreq
        obtain rfl := Option.some.inj hreq
        have hyb : y = "B" := by simpa using hy
        subst hyb
        decide
      · exfalso
        have e1 : (("A" : String) == x) = false :=
          beq_eq_false_iff_ne.mpr (fun hh => hA hh.symm)
        have e2 : (("B" : String) == x) = false :=
          beq_eq_false_iff_ne.mpr (fun hh => hB hh.symm)
        have e3 : (("C" : String) == x) = false :=
          beq_eq_false_iff_ne.mpr (fun hh => hC hh.symm)
        have hnone : requiresOf dagAcy x = none := by
          simp [requiresOf, dagAcy, mkNode, dummyJob, e1, e2, e3]
        rw [hnone] at hreq
        cases hreq

/-- C9, witness: the closed acyclic chain graph terminates with `ok` for its
stored node C. -/
theorem claim_c9_witness :
    ∃ fuel, ∀ f, fuel ≤ f → check_job_acyclic dagAcy "C" f = .ok :=
  claim_c9 dagAcy "C" (by unfold DagClosed; decide) dagAcy_acyclic (by decide)

/-- C1, witness: the amended rendering agrees with the code on the example
job. -/
theorem claim_c1_witness :
    generate_job_arg_tokens sumJobSet sumJob
      = spec_render_tokens_amended sumJobSet sumJob :=
  claim_c1 sumJobSet sumJob
